import Mathlib

/-!
Shallow embedding of the stock-comparison tool's core routines
(`safe_divide`, `get_scalar`, `get_annual_metrics`,
`compare_stocks_over_range`) together with proofs of the specification
claims about them.

Modelling conventions:
* numeric values are exact rationals (`ℚ`);
* Python `None` is `Option.none`, the "unavailable" sentinel;
* a pandas `DataFrame` of a financial statement is a `Statement`: a partial
  map from row labels to rows, plus the list of column labels; reading a
  missing row raises `KeyError`, modelled as `none` in the outer
  exception-tracking `Option`;
* the `try ... except Exception: return None` block of
  `get_annual_metrics` is modelled by chaining the steps that can raise
  through `Option.bind`, so any raised exception makes the whole call
  return `none`;
* a Python `dict` is an association list with first-occurrence keys;
  assignment (`d[k] = v`) overwrites in place or appends (`dictSet`),
  subscript reads are `dlookup`;
* the market-data provider (`yfinance`) is an environment
  `env : String → Company` giving each ticker its price history,
  statements and info mapping.
-/

namespace StockComparison

/-- A retrieved statement cell: `pandas` may hand back a sub-`Series`
(duplicated row labels) or a bare scalar. -/
inductive PdValue where
  | series (xs : List ℚ)
  | scalar (x : ℚ)
deriving DecidableEq

/-- Embedding of `safe_divide(numerator, denominator)`:
`numerator / denominator if numerator is not None and denominator else None`,
with `ZeroDivisionError` caught.  A `None` numerator, a falsy (`None` or
zero) denominator all yield `None`. -/
def safe_divide : Option ℚ → Option ℚ → Option ℚ
  | some n, some d => if d = 0 then none else some (n / d)
  | _, _ => none

/-- Embedding of `get_scalar(value)`: a `pd.Series` is unwrapped with
`.item()` when it has exactly one element and summed with `.sum()`
otherwise; a bare scalar is returned unchanged. -/
def get_scalar : PdValue → ℚ
  | PdValue.series xs => if xs.length = 1 then xs.headI else xs.sum
  | PdValue.scalar x => x

/-- A financial-statement `DataFrame`: named rows and fiscal-year column
labels.  `rows` is partial (a missing row label raises `KeyError` on
`.loc`); each present row is a total function on column labels. -/
structure Statement where
  rows : String → Option (String → PdValue)
  columns : List String

/-- Everything the provider returns for one ticker: the year's price
history (closing prices, possibly empty), the three statements, and the
`info` key-value mapping. -/
structure Company where
  history : ℤ → List ℚ
  financials : Statement
  balance_sheet : Statement
  cashflow : Statement
  info : String → Option ℚ

/-- Embedding of the repeated source pattern
`get_scalar(stmt.loc[row, f"{year}"]) if f"{year}" in stmt.columns else None`.
The outer `Option` tracks the exception channel: `none` means the row
label was absent and `.loc` raised `KeyError` (caught by the enclosing
`except`, aborting the year); `some v` means the expression evaluated to
the field value `v` (itself `none` when the column label was absent). -/
def fetchItem (st : Statement) (row col : String) : Option (Option ℚ) :=
  if col ∈ st.columns then
    match st.rows row with
    | some r => some (some (get_scalar (r col)))
    | none => none
  else
    some none

/-- A Python `dict` whose keys are strings: association list, unique keys,
first-insertion order. -/
abbrev Metrics := List (String × Option ℚ)

/-- Python `d[k] = v`: overwrite the existing entry in place, else append. -/
def dictSet {α : Type} : List (String × α) → String → α → List (String × α)
  | [], k, v => [(k, v)]
  | (k0, v0) :: rest, k, v =>
      if k0 = k then (k0, v) :: rest else (k0, v0) :: dictSet rest k v

/-- Python `d[k]` as a total lookup (`none` when the key is absent, which
in the source would raise `KeyError`). -/
def dlookup {α : Type} : List (String × α) → String → Option α
  | [], _ => none
  | (k0, v0) :: rest, k => if k0 = k then some v0 else dlookup rest k

/-- Embedding of `get_annual_metrics(ticker, year)`.  The chain of
`Option.bind`s is the body of the `try:` block: any step that can raise
(`KeyError` from a `.loc` on a missing row, `TypeError` from
`revenue - previous_revenue` with a `None` operand) yields `none`,
which the `except Exception` clause turns into a `None` result for the
whole year. -/
def get_annual_metrics (env : String → Company) (ticker : String) (year : ℤ) :
    Option Metrics :=
  let stock := env ticker
  match stock.history year with
  | [] => none
  | p :: ps =>
    (fetchItem stock.financials "Net Income" (toString year)).bind fun net_income =>
    (fetchItem stock.balance_sheet "Total Equity Gross Minority Interest" (toString year)).bind
      fun stockholders_equity =>
    (fetchItem stock.balance_sheet "Total Assets" (toString year)).bind fun total_assets =>
    (fetchItem stock.financials "Gross Profit" (toString year)).bind fun gross_profit =>
    (fetchItem stock.financials "Total Revenue" (toString year)).bind fun revenue =>
    (fetchItem stock.balance_sheet "Total Liabilities Net Minority Interest" (toString year)).bind
      fun total_liabilities =>
    (fetchItem stock.financials "EBITDA" (toString year)).bind fun ebitda =>
    let ev_ebitda := stock.info "enterpriseToEbitda"
    let peg_ratio := stock.info "pegRatio"
    let m := dictSet [] "ROE" (safe_divide net_income stockholders_equity)
    let m := dictSet m "ROA" (safe_divide net_income total_assets)
    let m := dictSet m "Gross Profit Margin" (safe_divide gross_profit revenue)
    let m := dictSet m "Debt-to-Equity" (safe_divide total_liabilities stockholders_equity)
    let end_of_year_price := (p :: ps).getLast (List.cons_ne_nil p ps)
    let eps := stock.info "trailingEps"
    let m := dictSet m "P/E Ratio" (safe_divide (some end_of_year_price) eps)
    let m := dictSet m "EV/EBITDA" ev_ebitda
    let market_cap := stock.info "marketCap"
    let m := dictSet m "P/EBITDA" (safe_divide market_cap ebitda)
    let m := dictSet m "Earnings Yield" (safe_divide eps (some end_of_year_price))
    (fetchItem stock.financials "Total Revenue" (toString (year - 1))).bind
      fun previous_revenue =>
    (match revenue, previous_revenue with
     | some r, some q => some (r - q)
     | _, _ => none).bind fun diff =>
    let m := dictSet m "Revenue Growth" (safe_divide (some diff) previous_revenue)
    match peg_ratio with
    | none =>
        (dlookup m "Revenue Growth").bind fun revenue_growth =>
        (dlookup m "P/E Ratio").bind fun pe_for_peg =>
        some (dictSet m "PEG Ratio"
          (safe_divide pe_for_peg (safe_divide revenue_growth (some 100))))
    | some v => some (dictSet m "PEG Ratio" (some v))

/-- Python `range(start_year, end_year + 1)` as a list of years. -/
def yearRange (start_year end_year : ℤ) : List ℤ :=
  (List.range (end_year + 1 - start_year).toNat).map fun i : ℕ => start_year + (i : ℤ)

/-- A value stored in a comparison-row dict: the year (an `int`) or a
ticker-prefixed metric (a float or `None`). -/
inductive Cell where
  | year (y : ℤ)
  | metric (v : Option ℚ)
deriving DecidableEq

/-- One row of the comparison table: a Python dict. -/
abbrev Row := List (String × Cell)

/-- Embedding of
`{"Year": year, **{f"{t1}_{k}": v ...}, **{f"{t2}_{k}": v ...}}`:
successive dict insertions in iteration (insertion) order. -/
def combineRow (ticker1 ticker2 : String) (y : ℤ) (m1 m2 : Metrics) : Row :=
  let d : Row := [("Year", Cell.year y)]
  let d := m1.foldl (fun d kv => dictSet d (ticker1 ++ "_" ++ kv.1) (Cell.metric kv.2)) d
  m2.foldl (fun d kv => dictSet d (ticker2 ++ "_" ++ kv.1) (Cell.metric kv.2)) d

/-- One iteration of the loop body of `compare_stocks_over_range`:
`if metrics1 and metrics2:` appends the combined row (a Python dict is
truthy exactly when it is non-`None` and non-empty). -/
def rowOfYear (env : String → Company) (ticker1 ticker2 : String) (y : ℤ) :
    Option Row :=
  match get_annual_metrics env ticker1 y, get_annual_metrics env ticker2 y with
  | some m1, some m2 =>
      if m1.isEmpty || m2.isEmpty then none
      else some (combineRow ticker1 ticker2 y m1 m2)
  | _, _ => none

/-- Embedding of `compare_stocks_over_range(ticker1, ticker2, start_year,
end_year)`: collect a row per year where both metric computations are
truthy; `if yearly_data:` returns the table, else warns and returns
`None`. -/
def compare_stocks_over_range (env : String → Company)
    (ticker1 ticker2 : String) (start_year end_year : ℤ) : Option (List Row) :=
  let yearly_data := (yearRange start_year end_year).filterMap (rowOfYear env ticker1 ticker2)
  if yearly_data.isEmpty then none else some yearly_data

/-- The value of the metrics dict built by a completed `try:` block of
`get_annual_metrics`, as a function of the fetched fields.  Used by the
inversion lemma: a successful call returns exactly this dict. -/
def mkMetrics (stock : Company) (ni se ta gp rev tl eb : Option ℚ)
    (price : ℚ) (pr : Option ℚ) (diff : ℚ) (pegv : Option ℚ) : Metrics :=
  [("ROE", safe_divide ni se),
   ("ROA", safe_divide ni ta),
   ("Gross Profit Margin", safe_divide gp rev),
   ("Debt-to-Equity", safe_divide tl se),
   ("P/E Ratio", safe_divide (some price) (stock.info "trailingEps")),
   ("EV/EBITDA", stock.info "enterpriseToEbitda"),
   ("P/EBITDA", safe_divide (stock.info "marketCap") eb),
   ("Earnings Yield", safe_divide (stock.info "trailingEps") (some price)),
   ("Revenue Growth", safe_divide (some diff) pr),
   ("PEG Ratio", pegv)]

/-- The ten metric labels, in insertion order. -/
def metricKeys : List String :=
  ["ROE", "ROA", "Gross Profit Margin", "Debt-to-Equity", "P/E Ratio",
   "EV/EBITDA", "P/EBITDA", "Earnings Yield", "Revenue Growth", "PEG Ratio"]

/-! ### Concrete example data used by witnesses and counterexamples -/

/-- Statement rows where every line item is present: the cell is `10` in
the "2023" column and `8` elsewhere. -/
def exLineItems : String → Option (String → PdValue) :=
  fun _ => some fun c => if c = "2023" then PdValue.scalar 10 else PdValue.scalar 8

/-- A fully populated statement with columns 2020–2023. -/
def exStatementAll : Statement := ⟨exLineItems, ["2020", "2021", "2022", "2023"]⟩

/-- A statement lacking the "2023" fiscal-year column. -/
def exStatementNo2023 : Statement := ⟨exLineItems, ["2020", "2021", "2022"]⟩

/-- A statement with only the "2023" column (no prior-year column). -/
def exStatementOnly2023 : Statement := ⟨exLineItems, ["2023"]⟩

/-- Info mapping without a "pegRatio" entry. -/
def exInfoNoPeg : String → Option ℚ := fun k =>
  if k = "trailingEps" then some 2
  else if k = "marketCap" then some 100
  else if k = "enterpriseToEbitda" then some 7
  else none

/-- Info mapping that does supply a "pegRatio" entry. -/
def exInfoPeg : String → Option ℚ := fun k =>
  if k = "pegRatio" then some 3 else exInfoNoPeg k

/-- Non-empty price history for 2021–2023, empty otherwise. -/
def exHistoryAll : ℤ → List ℚ := fun y =>
  if 2021 ≤ y ∧ y ≤ 2023 then [5, 6] else []

/-- Price history missing 2022 only. -/
def exHistoryMiss2022 : ℤ → List ℚ := fun y =>
  if y = 2022 then [] else exHistoryAll y

/-- A company with complete, well-formed data. -/
def exCompanyFull : Company :=
  ⟨exHistoryAll, exStatementAll, exStatementAll, exStatementAll, exInfoNoPeg⟩

/-- Complete data and a provider-supplied PEG ratio. -/
def exCompanyPeg : Company :=
  ⟨exHistoryAll, exStatementAll, exStatementAll, exStatementAll, exInfoPeg⟩

/-- Complete data except no price history for 2022. -/
def exCompanyMiss2022 : Company :=
  ⟨exHistoryMiss2022, exStatementAll, exStatementAll, exStatementAll, exInfoNoPeg⟩

/-- A company with no price history at all. -/
def exCompanyEmpty : Company :=
  ⟨fun _ => [], exStatementAll, exStatementAll, exStatementAll, exInfoNoPeg⟩

/-- Well-formed data except the balance sheet lacks the "2023" column
(so the "Total Equity" item's year column is missing). -/
def exCompanyNoEquityCol : Company :=
  ⟨exHistoryAll, exStatementAll, exStatementNo2023, exStatementAll, exInfoNoPeg⟩

/-- Well-formed current-year data but the income statement lacks the
prior-year ("2022") column. -/
def exCompanyNoPrior : Company :=
  ⟨exHistoryAll, exStatementOnly2023, exStatementAll, exStatementAll, exInfoNoPeg⟩

/-- Provider environments assigning the same or different data to tickers. -/
def exEnvFull : String → Company := fun _ => exCompanyFull

def exEnvPeg : String → Company := fun _ => exCompanyPeg

def exEnvPair : String → Company := fun t =>
  if t = "AAA" then exCompanyFull else exCompanyMiss2022

def exEnvEmpty : String → Company := fun _ => exCompanyEmpty

def exEnvNoEquityCol : String → Company := fun _ => exCompanyNoEquityCol

def exEnvNoPrior : String → Company := fun _ => exCompanyNoPrior

/-- The metrics dicts produced on the example data. -/
def exMetricsFull : Metrics := (get_annual_metrics exEnvFull "AAA" 2023).getD []

def exMetricsPeg : Metrics := (get_annual_metrics exEnvPeg "AAA" 2023).getD []

def exMetricsNoEquityCol : Metrics :=
  (get_annual_metrics exEnvNoEquityCol "AAA" 2023).getD []

/-- The comparison rows produced on the example pair environment. -/
def exRowsPair : List Row :=
  (yearRange 2021 2023).filterMap (rowOfYear exEnvPair "AAA" "BBB")

/-- The comparison rows produced when both tickers are fully available. -/
def exRowsTriple : List Row :=
  (yearRange 2021 2023).filterMap (rowOfYear exEnvFull "AAA" "BBB")

/-- The comparison rows produced when both ticker arguments are equal. -/
def exRowsSame : List Row :=
  (yearRange 2021 2023).filterMap (rowOfYear exEnvFull "AAA" "AAA")

/-! ### Helper lemmas on strings and dicts -/

lemma string_append_cancel_left {s a b : String} (h : s ++ a = s ++ b) : a = b := by
  apply String.ext
  have hd := congrArg String.data h
  simp only [String.data_append] at hd
  exact List.append_cancel_left hd

lemma prefixed_ne_year_key (t k : String) : t ++ "_" ++ k ≠ "Year" := by
  intro h
  have hd := congrArg String.data h
  simp only [String.data_append] at hd
  have h1 : '_' ∈ t.data ++ "_".data ++ k.data := by
    apply List.mem_append_left
    apply List.mem_append_right
    decide
  rw [hd] at h1
  exact absurd h1 (by decide)

lemma prefixed_inj (t : String) {a b : String} (h : t ++ "_" ++ a = t ++ "_" ++ b) :
    a = b :=
  string_append_cancel_left (s := t ++ "_") h

lemma dictSet_cons_ne {α : Type} {k0 k : String} (h : k0 ≠ k) (v0 v : α) (rest) :
    dictSet ((k0, v0) :: rest) k v = (k0, v0) :: dictSet rest k v := by
  simp [dictSet, h]

lemma dictSet_append_of_not_mem {α : Type} {l : List (String × α)} {k : String}
    (h : k ∉ l.map Prod.fst) (v : α) : dictSet l k v = l ++ [(k, v)] := by
  induction l with
  | nil => rfl
  | cons kv rest ih =>
    simp only [List.map_cons, List.mem_cons] at h
    push_neg at h
    obtain ⟨h1, h2⟩ := h
    cases kv with
    | mk k0 v0 =>
      rw [dictSet_cons_ne (fun he => h1 he.symm) v0 v rest, ih h2]
      simp

lemma dictSet_eq_self_of_dlookup {α : Type} {l : List (String × α)} {k : String} {v : α}
    (h : dlookup l k = some v) : dictSet l k v = l := by
  induction l with
  | nil => simp [dlookup] at h
  | cons kv rest ih =>
    cases kv with
    | mk k0 v0 =>
      by_cases hk : k0 = k
      · subst hk
        simp [dlookup] at h
        simp [dictSet, h]
      · rw [dlookup, if_neg hk] at h
        rw [dictSet_cons_ne hk v0 v rest, ih h]

lemma dlookup_append_of_not_mem_left {α : Type} {l1 l2 : List (String × α)} {k : String}
    (h : k ∉ l1.map Prod.fst) : dlookup (l1 ++ l2) k = dlookup l2 k := by
  induction l1 with
  | nil => rfl
  | cons kv rest ih =>
    simp only [List.map_cons, List.mem_cons] at h
    push_neg at h
    obtain ⟨h1, h2⟩ := h
    cases kv with
    | mk k0 v0 =>
      rw [List.cons_append, dlookup, if_neg (fun he => h1 he.symm), ih h2]

lemma safe_divide_some {b : ℚ} (hb : b ≠ 0) (a : ℚ) :
    safe_divide (some a) (some b) = some (a / b) := by
  simp [safe_divide, hb]

/-! ### Inversion of a successful `get_annual_metrics` call -/

/-- A successful call returns exactly the dict `mkMetrics`, and every step
of the `try:` block must have completed: a non-empty price history, no
`KeyError` from any row lookup, and `some` current- and prior-year revenue
values (otherwise `revenue - previous_revenue` raises `TypeError` and the
`except` clause returns `None`). -/
lemma get_annual_metrics_eq_some {env : String → Company} {ticker : String} {year : ℤ}
    {m : Metrics} (h : get_annual_metrics env ticker year = some m) :
    ∃ (p : ℚ) (ps : List ℚ) (ni se ta gp tl eb : Option ℚ) (r q : ℚ),
      (env ticker).history year = p :: ps ∧
      fetchItem (env ticker).financials "Net Income" (toString year) = some ni ∧
      fetchItem (env ticker).balance_sheet "Total Equity Gross Minority Interest"
        (toString year) = some se ∧
      fetchItem (env ticker).balance_sheet "Total Assets" (toString year) = some ta ∧
      fetchItem (env ticker).financials "Gross Profit" (toString year) = some gp ∧
      fetchItem (env ticker).financials "Total Revenue" (toString year) = some (some r) ∧
      fetchItem (env ticker).balance_sheet "Total Liabilities Net Minority Interest"
        (toString year) = some tl ∧
      fetchItem (env ticker).financials "EBITDA" (toString year) = some eb ∧
      fetchItem (env ticker).financials "Total Revenue" (toString (year - 1)) = some (some q) ∧
      m = mkMetrics (env ticker) ni se ta gp (some r) tl eb
            ((p :: ps).getLast (List.cons_ne_nil p ps)) (some q) (r - q)
            (match (env ticker).info "pegRatio" with
             | none =>
                 safe_divide
                   (safe_divide (some ((p :: ps).getLast (List.cons_ne_nil p ps)))
                     ((env ticker).info "trailingEps"))
                   (safe_divide (safe_divide (some (r - q)) (some q)) (some 100))
             | some v => some v) := by
  unfold get_annual_metrics at h
  simp only [] at h
  cases hh : (env ticker).history year with
  | nil =>
    rw [hh] at h
    simp at h
  | cons p ps =>
    rw [hh] at h
    simp only [] at h
    obtain ⟨ni, hni, h⟩ := Option.bind_eq_some.mp h
    obtain ⟨se, hse, h⟩ := Option.bind_eq_some.mp h
    obtain ⟨ta, hta, h⟩ := Option.bind_eq_some.mp h
    obtain ⟨gp, hgp, h⟩ := Option.bind_eq_some.mp h
    obtain ⟨rev, hrev, h⟩ := Option.bind_eq_some.mp h
    obtain ⟨tl, htl, h⟩ := Option.bind_eq_some.mp h
    obtain ⟨eb, heb, h⟩ := Option.bind_eq_some.mp h
    obtain ⟨pr, hpr, h⟩ := Option.bind_eq_some.mp h
    obtain ⟨diff, hdiff, h⟩ := Option.bind_eq_some.mp h
    cases rev with
    | none => simp at hdiff
    | some r =>
      cases pr with
      | none => simp at hdiff
      | some q =>
        have hdq : diff = r - q := (Option.some.inj hdiff).symm
        subst hdq
        cases hpeg : (env ticker).info "pegRatio" with
        | some v =>
          rw [hpeg] at h
          refine ⟨p, ps, ni, se, ta, gp, tl, eb, r, q, rfl, hni, hse, hta, hgp, hrev, htl,
            heb, hpr, ?_⟩
          exact (Option.some.inj h).symm
        | none =>
          rw [hpeg] at h
          obtain ⟨rg, hrg, h⟩ := Option.bind_eq_some.mp h
          obtain ⟨pe, hpe, h⟩ := Option.bind_eq_some.mp h
          have hrg' : some (safe_divide (some (r - q)) (some q)) = some rg := hrg
          have hpe' : some (safe_divide (some ((p :: ps).getLast (List.cons_ne_nil p ps)))
            ((env ticker).info "trailingEps")) = some pe := hpe
          obtain rfl := (Option.some.inj hrg').symm
          obtain rfl := (Option.some.inj hpe').symm
          refine ⟨p, ps, ni, se, ta, gp, tl, eb, r, q, rfl, hni, hse, hta, hgp, hrev, htl,
            heb, hpr, ?_⟩
          exact (Option.some.inj h).symm

/-- The key list of any successfully returned metrics dict. -/
lemma metrics_keys_of_eq_some {env : String → Company} {ticker : String} {year : ℤ}
    {m : Metrics} (h : get_annual_metrics env ticker year = some m) :
    m.map Prod.fst = metricKeys := by
  obtain ⟨p, ps, ni, se, ta, gp, tl, eb, r, q, _, _, _, _, _, _, _, _, _, hm⟩ :=
    get_annual_metrics_eq_some h
  subst hm
  rfl

/-- A successfully returned metrics dict is never the empty dict. -/
lemma metrics_ne_nil_of_eq_some {env : String → Company} {ticker : String} {year : ℤ}
    {m : Metrics} (h : get_annual_metrics env ticker year = some m) : m ≠ [] := by
  intro hnil
  have := metrics_keys_of_eq_some h
  rw [hnil] at this
  exact absurd this (by simp [metricKeys])

/-! ### Claim C3: `safe_divide` -/

/-- C3: for all inputs, `safe_divide` returns unavailable when the numerator
is unavailable, when the denominator is unavailable, or when the denominator
is zero; otherwise it returns the quotient.  (It is a total Lean function,
so it never raises; in the source the only possible arithmetic error,
`ZeroDivisionError`, is caught and the zero denominator is already filtered
out by the truthiness test.) -/
theorem safe_divide_spec :
    (∀ y : Option ℚ, safe_divide none y = none) ∧
    (∀ x : Option ℚ, safe_divide x none = none) ∧
    (∀ x : Option ℚ, safe_divide x (some 0) = none) ∧
    (∀ a b : ℚ, b ≠ 0 → safe_divide (some a) (some b) = some (a / b)) := by
  refine ⟨fun y => ?_, fun x => ?_, fun x => ?_, fun a b hb => ?_⟩
  · cases y <;> rfl
  · cases x <;> rfl
  · cases x <;> simp [safe_divide]
  · simp [safe_divide, hb]

/-- Witness for C3 at concrete inputs. -/
theorem safe_divide_spec_witness :
    ((2 : ℚ) ≠ 0) ∧ safe_divide (some 6) (some 2) = some (6 / 2) :=
  ⟨by norm_num, safe_divide_spec.2.2.2 6 2 (by norm_num)⟩

/-! ### Claim C7: `get_scalar` -/

/-- C7: `get_scalar` unwraps a single-element series to its sole element,
sums a multi-element series, and returns a bare scalar unchanged; in
particular `[5] ↦ 5`, `[2,3,4] ↦ 9`, `7 ↦ 7`. -/
theorem get_scalar_spec :
    (∀ x : ℚ, get_scalar (PdValue.series [x]) = x) ∧
    (∀ xs : List ℚ, 2 ≤ xs.length → get_scalar (PdValue.series xs) = xs.sum) ∧
    (∀ x : ℚ, get_scalar (PdValue.scalar x) = x) ∧
    get_scalar (PdValue.series [5]) = 5 ∧
    get_scalar (PdValue.series [2, 3, 4]) = 9 ∧
    get_scalar (PdValue.scalar 7) = 7 := by
  refine ⟨fun x => by simp [get_scalar], fun xs hxs => ?_, fun x => rfl, by simp [get_scalar],
    ?_, rfl⟩
  · have hne : xs.length ≠ 1 := by omega
    simp [get_scalar, hne]
  · show get_scalar (PdValue.series [2, 3, 4]) = 9
    simp [get_scalar]
    norm_num

/-- Witness for C7's hypothesis-bearing part at a concrete multi-element
series. -/
theorem get_scalar_spec_witness :
    2 ≤ ([(2 : ℚ), 3, 4]).length ∧
      get_scalar (PdValue.series [2, 3, 4]) = ([(2 : ℚ), 3, 4]).sum :=
  ⟨by decide, get_scalar_spec.2.1 [2, 3, 4] (by decide)⟩

/-! ### Claim C1 (corrected): missing balance-sheet year column -/

/-- C1, counterexample to the claim as stated: on a company whose
balance sheet lacks the "2023" column (so the "Total Equity" item's year
column is missing) while everything else is well-formed, the returned
metrics mapping has ROE and Debt-to-Equity unavailable — but ROA is
unavailable too (the claim asserted it would be a computed numeric
value), because Total Assets is read from the same balance sheet under
the same statement-wide column guard. -/
theorem roa_unavailable_when_balance_column_missing :
    ("2023" ∉ exCompanyNoEquityCol.balance_sheet.columns) ∧
    ("2023" ∈ exCompanyNoEquityCol.financials.columns) ∧
    get_annual_metrics exEnvNoEquityCol "AAA" 2023 = some exMetricsNoEquityCol ∧
    dlookup exMetricsNoEquityCol "ROE" = some none ∧
    dlookup exMetricsNoEquityCol "Debt-to-Equity" = some none ∧
    dlookup exMetricsNoEquityCol "ROA" = some none :=
  ⟨by decide, by decide, rfl, rfl, rfl, rfl⟩

/-- C1, amended: for every ticker/year where the balance sheet lacks the
fiscal-year column (hence the "Total Equity" item's year column is
missing) and all other data is well-formed, `get_annual_metrics` still
returns a metrics mapping — the year's computation is not aborted — in
which ROE, Debt-to-Equity and also ROA are unavailable, while Gross
Profit Margin and P/E Ratio are computed numeric values. -/
theorem balance_column_missing_partial_degradation
    {env : String → Company} {ticker : String} {year : ℤ}
    {p : ℚ} {ps : List ℚ} {rNI rGP rTR rEB : String → PdValue} {eps : ℚ}
    (hhist : (env ticker).history year = p :: ps)
    (hbal : toString year ∉ (env ticker).balance_sheet.columns)
    (hfin : toString year ∈ (env ticker).financials.columns)
    (hfin1 : toString (year - 1) ∈ (env ticker).financials.columns)
    (hNI : (env ticker).financials.rows "Net Income" = some rNI)
    (hGP : (env ticker).financials.rows "Gross Profit" = some rGP)
    (hTR : (env ticker).financials.rows "Total Revenue" = some rTR)
    (hEB : (env ticker).financials.rows "EBITDA" = some rEB)
    (hEps : (env ticker).info "trailingEps" = some eps)
    (hEps0 : eps ≠ 0)
    (hRev0 : get_scalar (rTR (toString year)) ≠ 0) :
    ∃ m : Metrics, get_annual_metrics env ticker year = some m ∧
      dlookup m "ROE" = some none ∧
      dlookup m "Debt-to-Equity" = some none ∧
      dlookup m "ROA" = some none ∧
      (∃ x : ℚ, dlookup m "Gross Profit Margin" = some (some x)) ∧
      (∃ x : ℚ, dlookup m "P/E Ratio" = some (some x)) := by
  have hfNI : fetchItem (env ticker).financials "Net Income" (toString year)
      = some (some (get_scalar (rNI (toString year)))) := by
    unfold fetchItem; rw [if_pos hfin, hNI]
  have hfGP : fetchItem (env ticker).financials "Gross Profit" (toString year)
      = some (some (get_scalar (rGP (toString year)))) := by
    unfold fetchItem; rw [if_pos hfin, hGP]
  have hfTR : fetchItem (env ticker).financials "Total Revenue" (toString year)
      = some (some (get_scalar (rTR (toString year)))) := by
    unfold fetchItem; rw [if_pos hfin, hTR]
  have hfEB : fetchItem (env ticker).financials "EBITDA" (toString year)
      = some (some (get_scalar (rEB (toString year)))) := by
    unfold fetchItem; rw [if_pos hfin, hEB]
  have hfTR1 : fetchItem (env ticker).financials "Total Revenue" (toString (year - 1))
      = some (some (get_scalar (rTR (toString (year - 1))))) := by
    unfold fetchItem; rw [if_pos hfin1, hTR]
  have hbSE : fetchItem (env ticker).balance_sheet "Total Equity Gross Minority Interest"
      (toString year) = some none := by
    unfold fetchItem; rw [if_neg hbal]
  have hbTA : fetchItem (env ticker).balance_sheet "Total Assets" (toString year)
      = some none := by
    unfold fetchItem; rw [if_neg hbal]
  have hbTL : fetchItem (env ticker).balance_sheet "Total Liabilities Net Minority Interest"
      (toString year) = some none := by
    unfold fetchItem; rw [if_neg hbal]
  unfold get_annual_metrics
  simp only []
  rw [hhist]
  simp only [hfNI, hfGP, hfTR, hfEB, hfTR1, hbSE, hbTA, hbTL, hEps, Option.some_bind]
  cases hpeg : (env ticker).info "pegRatio" with
  | none =>
    refine ⟨_, rfl, rfl, rfl, rfl, ?_, ?_⟩
    · rw [safe_divide_some hRev0]
      exact ⟨_, rfl⟩
    · rw [safe_divide_some hEps0]
      exact ⟨_, rfl⟩
  | some v =>
    refine ⟨_, rfl, rfl, rfl, rfl, ?_, ?_⟩
    · rw [safe_divide_some hRev0]
      exact ⟨_, rfl⟩
    · rw [safe_divide_some hEps0]
      exact ⟨_, rfl⟩

/-- Witness for the amended C1 on the concrete example company. -/
theorem balance_column_missing_partial_degradation_witness :
    ∃ m : Metrics, get_annual_metrics exEnvNoEquityCol "AAA" 2023 = some m ∧
      dlookup m "ROE" = some none ∧
      dlookup m "Debt-to-Equity" = some none ∧
      dlookup m "ROA" = some none ∧
      (∃ x : ℚ, dlookup m "Gross Profit Margin" = some (some x)) ∧
      (∃ x : ℚ, dlookup m "P/E Ratio" = some (some x)) :=
  @balance_column_missing_partial_degradation exEnvNoEquityCol "AAA" 2023 5 [6]
    (fun c => if c = "2023" then PdValue.scalar 10 else PdValue.scalar 8)
    (fun c => if c = "2023" then PdValue.scalar 10 else PdValue.scalar 8)
    (fun c => if c = "2023" then PdValue.scalar 10 else PdValue.scalar 8)
    (fun c => if c = "2023" then PdValue.scalar 10 else PdValue.scalar 8)
    2 rfl (by decide) (by decide) (by decide) rfl rfl rfl rfl rfl (by decide) (by decide)

/-! ### Claim C2 (code bug): missing prior-year income column aborts -/

/-- C2: the source intends the absent prior-year column to degrade only
Revenue Growth (the guarded lookup sets `previous_revenue` to `None`),
but line 111 computes `revenue - previous_revenue` before `safe_divide`
can see it, raising `TypeError`, which the blanket `except` turns into an
aborted year: `get_annual_metrics` returns `None` although the
current-year data is complete and well-formed. -/
theorem missing_prior_year_column_aborts_year :
    ("2022" ∉ exCompanyNoPrior.financials.columns) ∧
    ("2023" ∈ exCompanyNoPrior.financials.columns) ∧
    exCompanyNoPrior.history 2023 ≠ [] ∧
    get_annual_metrics exEnvNoPrior "AAA" 2023 = none :=
  ⟨by decide, by decide, by decide, rfl⟩

/-! ### Claim C8: shape of a returned metrics mapping -/

/-- C8: whenever `get_annual_metrics` returns a metrics mapping (rather
than unavailable), the mapping carries exactly the ten metric keys, in
order, and every field is either the explicit unavailable marker (`none`)
or a (finite, since values are exact rationals here) number — never a
partially-constructed or type-ambiguous value. -/
theorem annual_metrics_fields_wellformed {env : String → Company} {ticker : String}
    {year : ℤ} {m : Metrics} (h : get_annual_metrics env ticker year = some m) :
    m.map Prod.fst = metricKeys ∧ ∀ kv ∈ m, kv.2 = none ∨ ∃ x : ℚ, kv.2 = some x := by
  refine ⟨metrics_keys_of_eq_some h, ?_⟩
  intro kv _
  cases hkv : kv.2 with
  | none => exact Or.inl rfl
  | some x => exact Or.inr ⟨x, rfl⟩

/-- Witness for C8 on a fully populated company. -/
theorem annual_metrics_fields_wellformed_witness :
    get_annual_metrics exEnvFull "AAA" 2023 = some exMetricsFull ∧
      exMetricsFull.map Prod.fst = metricKeys := by
  have h : get_annual_metrics exEnvFull "AAA" 2023 = some exMetricsFull := rfl
  exact ⟨h, (annual_metrics_fields_wellformed h).1⟩

/-! ### Claim C6: the PEG-ratio field -/

/-- C6: whenever a metrics mapping is returned, its PEG Ratio field is the
provider's "pegRatio" value verbatim when that is present, and otherwise
is `safe_divide (P/E Ratio) (safe_divide (Revenue Growth) 100)` computed
from the mapping's own P/E Ratio and Revenue Growth fields. -/
theorem peg_ratio_spec {env : String → Company} {ticker : String} {year : ℤ}
    {m : Metrics} (h : get_annual_metrics env ticker year = some m) :
    (∀ v : ℚ, (env ticker).info "pegRatio" = some v →
      dlookup m "PEG Ratio" = some (some v)) ∧
    ((env ticker).info "pegRatio" = none →
      ∀ pe rg : Option ℚ, dlookup m "P/E Ratio" = some pe →
        dlookup m "Revenue Growth" = some rg →
        dlookup m "PEG Ratio" = some (safe_divide pe (safe_divide rg (some 100)))) := by
  obtain ⟨p, ps, ni, se, ta, gp, tl, eb, r, q, hh, _, _, _, _, _, _, _, _, hm⟩ :=
    get_annual_metrics_eq_some h
  subst hm
  constructor
  · intro v hv
    rw [hv]
    exact rfl
  · intro hv pe rg hpe hrg
    have hpe' : some (safe_divide (some ((p :: ps).getLast (List.cons_ne_nil p ps)))
      ((env ticker).info "trailingEps")) = some pe := hpe
    have hrg' : some (safe_divide (some (r - q)) (some q)) = some rg := hrg
    obtain rfl := (Option.some.inj hpe').symm
    obtain rfl := (Option.some.inj hrg').symm
    rw [hv]
    exact rfl

/-- Witness for C6: a company whose info supplies "pegRatio" directly
(value taken verbatim) and one without it (fallback formula). -/
theorem peg_ratio_spec_witness :
    dlookup exMetricsPeg "PEG Ratio" = some (some 3) ∧
    dlookup exMetricsFull "PEG Ratio" =
      some (safe_divide (safe_divide (some 6) (some 2))
        (safe_divide (safe_divide (some (10 - 8)) (some 8)) (some 100))) := by
  constructor
  · exact (peg_ratio_spec
      (show get_annual_metrics exEnvPeg "AAA" 2023 = some exMetricsPeg from rfl)).1 3 rfl
  · exact (peg_ratio_spec
      (show get_annual_metrics exEnvFull "AAA" 2023 = some exMetricsFull from rfl)).2 rfl
      (safe_divide (some 6) (some 2)) (safe_divide (some (10 - 8)) (some 8)) rfl rfl

/-! ### Claims C4 and C5: `compare_stocks_over_range` -/

/-- The loop body skips a year when the first ticker's metrics are `None`. -/
lemma rowOfYear_none_left {env : String → Company} {t1 t2 : String} {y : ℤ}
    (h : get_annual_metrics env t1 y = none) : rowOfYear env t1 t2 y = none := by
  cases h2 : get_annual_metrics env t2 y <;> (unfold rowOfYear; rw [h, h2])

/-- The loop body skips a year when the second ticker's metrics are `None`. -/
lemma rowOfYear_none_right {env : String → Company} {t1 t2 : String} {y : ℤ}
    (h : get_annual_metrics env t2 y = none) : rowOfYear env t1 t2 y = none := by
  cases h1 : get_annual_metrics env t1 y <;> (unfold rowOfYear; rw [h1, h])

/-- When both computations succeed (and hence are truthy, the dicts being
non-empty), the loop body emits the combined row. -/
lemma rowOfYear_combine {env : String → Company} {t1 t2 : String} {y : ℤ}
    {m1 m2 : Metrics} (h1 : get_annual_metrics env t1 y = some m1)
    (h2 : get_annual_metrics env t2 y = some m2) :
    rowOfYear env t1 t2 y = some (combineRow t1 t2 y m1 m2) := by
  cases m1 with
  | nil => exact absurd rfl (metrics_ne_nil_of_eq_some h1)
  | cons a as =>
    cases m2 with
    | nil => exact absurd rfl (metrics_ne_nil_of_eq_some h2)
    | cons b bs =>
      unfold rowOfYear
      rw [h1, h2]
      rfl

/-- The collected rows are exactly one combined row per year on which both
metric computations succeed. -/
lemma filterMap_rowOfYear_eq (env : String → Company) (t1 t2 : String) (l : List ℤ) :
    l.filterMap (rowOfYear env t1 t2) =
      (l.filter fun y => (get_annual_metrics env t1 y).isSome &&
        (get_annual_metrics env t2 y).isSome).map
        (fun y => combineRow t1 t2 y ((get_annual_metrics env t1 y).getD [])
          ((get_annual_metrics env t2 y).getD [])) := by
  induction l with
  | nil => rfl
  | cons y ys ih =>
    rw [List.filterMap_cons, List.filter_cons]
    cases h1 : get_annual_metrics env t1 y with
    | none =>
      rw [rowOfYear_none_left h1]
      simp only [h1, Option.isSome_none, Bool.false_and, Bool.false_eq_true, if_false]
      exact ih
    | some m1 =>
      cases h2 : get_annual_metrics env t2 y with
      | none =>
        rw [rowOfYear_none_right h2]
        simp only [h1, h2, Option.isSome_some, Option.isSome_none, Bool.and_false,
          Bool.false_eq_true, if_false]
        exact ih
      | some m2 =>
        rw [rowOfYear_combine h1 h2]
        simp only [h1, h2, Option.isSome_some, Bool.and_self, if_true, List.map_cons,
          Option.getD_some]
        rw [ih]

/-- `range(start_year, end_year + 1)` is strictly ascending. -/
lemma yearRange_sorted (s e : ℤ) : List.Sorted (· < ·) (yearRange s e) := by
  unfold yearRange
  refine List.Pairwise.map _ ?_ (List.sorted_lt_range _)
  intro a b hab
  omega

/-- C4: whenever `compare_stocks_over_range` returns a table, its rows are
exactly one combined row per year of the inclusive range on which both
tickers' metric computations succeed, taken in ascending year order, and
no row at all — not a partial one — for any year on which either
computation is unavailable. -/
theorem compare_range_rows {env : String → Company} {t1 t2 : String} {s e : ℤ}
    {rows : List Row} (h : compare_stocks_over_range env t1 t2 s e = some rows) :
    rows = ((yearRange s e).filter fun y => (get_annual_metrics env t1 y).isSome &&
        (get_annual_metrics env t2 y).isSome).map
        (fun y => combineRow t1 t2 y ((get_annual_metrics env t1 y).getD [])
          ((get_annual_metrics env t2 y).getD [])) ∧
    List.Sorted (· < ·) ((yearRange s e).filter fun y =>
      (get_annual_metrics env t1 y).isSome && (get_annual_metrics env t2 y).isSome) := by
  constructor
  · unfold compare_stocks_over_range at h
    simp only [] at h
    split at h
    · exact absurd h (by simp)
    · rw [← Option.some.inj h, filterMap_rowOfYear_eq]
  · exact (yearRange_sorted s e).filter _

/-- Witness for C4: with 2021–2023 and both tickers fully available the
rows are exactly the years 2021, 2022, 2023 in order; when one ticker has
no data for 2022 the rows are exactly 2021 and 2023, skipping 2022. -/
theorem compare_range_rows_witness :
    (compare_stocks_over_range exEnvPair "AAA" "BBB" 2021 2023 = some exRowsPair ∧
      ((yearRange 2021 2023).filter fun y =>
        (get_annual_metrics exEnvPair "AAA" y).isSome &&
        (get_annual_metrics exEnvPair "BBB" y).isSome) = [2021, 2023] ∧
      exRowsPair = (((yearRange 2021 2023).filter fun y =>
        (get_annual_metrics exEnvPair "AAA" y).isSome &&
        (get_annual_metrics exEnvPair "BBB" y).isSome).map
        (fun y => combineRow "AAA" "BBB" y ((get_annual_metrics exEnvPair "AAA" y).getD [])
          ((get_annual_metrics exEnvPair "BBB" y).getD [])))) ∧
    (compare_stocks_over_range exEnvFull "AAA" "BBB" 2021 2023 = some exRowsTriple ∧
      ((yearRange 2021 2023).filter fun y =>
        (get_annual_metrics exEnvFull "AAA" y).isSome &&
        (get_annual_metrics exEnvFull "BBB" y).isSome) = [2021, 2022, 2023] ∧
      exRowsTriple = (((yearRange 2021 2023).filter fun y =>
        (get_annual_metrics exEnvFull "AAA" y).isSome &&
        (get_annual_metrics exEnvFull "BBB" y).isSome).map
        (fun y => combineRow "AAA" "BBB" y ((get_annual_metrics exEnvFull "AAA" y).getD [])
          ((get_annual_metrics exEnvFull "BBB" y).getD [])))) :=
  ⟨⟨rfl, by decide,
    (@compare_range_rows exEnvPair "AAA" "BBB" 2021 2023 exRowsPair rfl).1⟩,
   ⟨rfl, by decide,
    (@compare_range_rows exEnvFull "AAA" "BBB" 2021 2023 exRowsTriple rfl).1⟩⟩

/-- C5: `compare_stocks_over_range` never returns a zero-row table, and
when no year of the range yields metrics for both tickers it signals
unavailable (`None`, with a warning in the source) instead of an empty
table. -/
theorem compare_range_empty_unavailable (env : String → Company) (t1 t2 : String)
    (s e : ℤ) :
    (∀ rows, compare_stocks_over_range env t1 t2 s e = some rows → rows ≠ []) ∧
    ((∀ y ∈ yearRange s e, ¬((get_annual_metrics env t1 y).isSome ∧
        (get_annual_metrics env t2 y).isSome)) →
      compare_stocks_over_range env t1 t2 s e = none) := by
  constructor
  · intro rows h hnil
    subst hnil
    unfold compare_stocks_over_range at h
    simp only [] at h
    split at h
    · exact absurd h (by simp)
    · rename_i hc
      exact hc (by rw [Option.some.inj h]; rfl)
  · intro hall
    have hfm : (yearRange s e).filterMap (rowOfYear env t1 t2) = [] := by
      rw [List.filterMap_eq_nil_iff]
      intro y hy
      cases h1 : get_annual_metrics env t1 y with
      | none => exact rowOfYear_none_left h1
      | some m1 =>
        cases h2 : get_annual_metrics env t2 y with
        | none => exact rowOfYear_none_right h2
        | some m2 => exact absurd ⟨by simp [h1], by simp [h2]⟩ (hall y hy)
    unfold compare_stocks_over_range
    simp only []
    rw [hfm]
    rfl

/-- Witness for C5: an environment with no price data at all makes the
whole range comparison return `None`. -/
theorem compare_range_empty_unavailable_witness :
    compare_stocks_over_range exEnvEmpty "AAA" "BBB" 2021 2023 = none :=
  (compare_range_empty_unavailable exEnvEmpty "AAA" "BBB" 2021 2023).2 (by decide)

/-! ### Claim C10: equal tickers collapse to one key set -/

/-- The returned table is the filterMap of the per-year loop body. -/
lemma compare_rows_eq_filterMap {env : String → Company} {t1 t2 : String} {s e : ℤ}
    {rows : List Row} (h : compare_stocks_over_range env t1 t2 s e = some rows) :
    rows = (yearRange s e).filterMap (rowOfYear env t1 t2) := by
  unfold compare_stocks_over_range at h
  simp only [] at h
  split at h
  · exact absurd h (by simp)
  · exact (Option.some.inj h).symm

/-- Folding dict insertions whose keys are all fresh appends the entries. -/
lemma foldl_dictSet_fresh (t : String) (m : Metrics) (base : Row)
    (hfresh : ∀ kv ∈ m, (t ++ "_" ++ kv.1) ∉ base.map Prod.fst)
    (hnd : (m.map fun kv => t ++ "_" ++ kv.1).Nodup) :
    m.foldl (fun d kv => dictSet d (t ++ "_" ++ kv.1) (Cell.metric kv.2)) base
      = base ++ m.map (fun kv => (t ++ "_" ++ kv.1, Cell.metric kv.2)) := by
  induction m generalizing base with
  | nil => simp
  | cons kv rest ih =>
    rw [List.foldl_cons,
      dictSet_append_of_not_mem (hfresh kv (List.mem_cons_self kv rest)) _]
    rw [List.map_cons] at hnd
    rw [ih (base ++ [(t ++ "_" ++ kv.1, Cell.metric kv.2)]) ?_ hnd.of_cons]
    · simp
    · intro kv' hkv'
      rw [List.map_append, List.mem_append]
      push_neg
      refine ⟨hfresh kv' (List.mem_cons_of_mem kv hkv'), ?_⟩
      intro hmem
      simp only [List.map_cons, List.map_nil, List.mem_singleton] at hmem
      exact (List.rel_of_pairwise_cons hnd
        (List.mem_map_of_mem (fun kv => t ++ "_" ++ kv.1) hkv')) hmem.symm

/-- Looking a prefixed key up among the prefixed entries finds the
corresponding metric value (keys being distinct after prefixing). -/
lemma dlookup_prefixEntries (t : String) (m : Metrics)
    (hnd : (m.map fun kv => t ++ "_" ++ kv.1).Nodup) :
    ∀ {k : String} {v : Option ℚ}, (k, v) ∈ m →
      dlookup (m.map fun kv => (t ++ "_" ++ kv.1, Cell.metric kv.2)) (t ++ "_" ++ k)
        = some (Cell.metric v) := by
  induction m with
  | nil => intro k v hkv; exact absurd hkv (List.not_mem_nil _)
  | cons kv0 rest ih =>
    intro k v hkv
    rw [List.map_cons] at hnd ⊢
    rcases List.mem_cons.mp hkv with heq | hmem
    · subst heq
      simp [dlookup]
    · by_cases hk : kv0.1 = k
      · exfalso
        refine (List.rel_of_pairwise_cons hnd ?_) rfl
        rw [hk]
        exact List.mem_map_of_mem (fun kv => t ++ "_" ++ kv.1) hmem
      · rw [show dlookup ((t ++ "_" ++ kv0.1, Cell.metric kv0.2) ::
            rest.map fun kv => (t ++ "_" ++ kv.1, Cell.metric kv.2)) (t ++ "_" ++ k)
            = if t ++ "_" ++ kv0.1 = t ++ "_" ++ k then some (Cell.metric kv0.2)
              else dlookup (rest.map fun kv => (t ++ "_" ++ kv.1, Cell.metric kv.2))
                (t ++ "_" ++ k) from rfl,
          if_neg (fun hcontra => hk (prefixed_inj t hcontra))]
        exact ih hnd.of_cons hmem

/-- Folding dict insertions whose keys already hold the same values leaves
the dict unchanged (the second `**{...}` overwrites entry by entry). -/
lemma foldl_dictSet_existing (t : String) (m : Metrics) (base : Row)
    (h : ∀ kv ∈ m, dlookup base (t ++ "_" ++ kv.1) = some (Cell.metric kv.2)) :
    m.foldl (fun d kv => dictSet d (t ++ "_" ++ kv.1) (Cell.metric kv.2)) base = base := by
  induction m with
  | nil => rfl
  | cons kv rest ih =>
    rw [List.foldl_cons, dictSet_eq_self_of_dlookup (h kv (List.mem_cons_self kv rest))]
    exact ih fun kv' h' => h kv' (List.mem_cons_of_mem kv h')

/-- C10: when the two ticker arguments are equal, both metric sets flatten
under identical ticker-prefixed keys, so every emitted row consists of the
year plus only one set of ten prefixed keys — the first insertion is
overwritten in place by the second computation's values (which, the data
source being the same, are that same metrics mapping), not kept side by
side. -/
theorem same_ticker_rows_overwritten {env : String → Company} {t : String} {s e : ℤ}
    {rows : List Row} {row : Row}
    (h : compare_stocks_over_range env t t s e = some rows) (hr : row ∈ rows) :
    ∃ (y : ℤ) (m : Metrics), get_annual_metrics env t y = some m ∧
      m.map Prod.fst = metricKeys ∧
      row.map Prod.fst = "Year" :: (m.map Prod.fst).map (fun k => t ++ "_" ++ k) ∧
      dlookup row "Year" = some (Cell.year y) ∧
      ∀ k v, (k, v) ∈ m → dlookup row (t ++ "_" ++ k) = some (Cell.metric v) := by
  rw [compare_rows_eq_filterMap h] at hr
  obtain ⟨y, hy, hrow⟩ := List.mem_filterMap.mp hr
  cases hm : get_annual_metrics env t y with
  | none =>
    rw [rowOfYear_none_left hm] at hrow
    exact absurd hrow (by simp)
  | some m =>
    rw [rowOfYear_combine hm hm] at hrow
    obtain rfl := (Option.some.inj hrow)
    have hk : m.map Prod.fst = metricKeys := metrics_keys_of_eq_some hm
    have hnd : (m.map fun kv => t ++ "_" ++ kv.1).Nodup := by
      have hmm : (m.map fun kv => t ++ "_" ++ kv.1)
          = (m.map Prod.fst).map (fun k => t ++ "_" ++ k) :=
        (List.map_map _ _ _).symm
      rw [hmm, hk]
      exact ((by decide : metricKeys.Nodup)).map fun a b hab => prefixed_inj t hab
    have hfresh : ∀ kv ∈ m, (t ++ "_" ++ kv.1) ∉
        ([("Year", Cell.year y)] : Row).map Prod.fst := by
      intro kv _
      simp only [List.map_cons, List.map_nil, List.mem_singleton]
      exact prefixed_ne_year_key t kv.1
    have hfold1 : m.foldl (fun d kv => dictSet d (t ++ "_" ++ kv.1) (Cell.metric kv.2))
        ([("Year", Cell.year y)] : Row)
        = ("Year", Cell.year y) :: m.map (fun kv => (t ++ "_" ++ kv.1, Cell.metric kv.2)) :=
      foldl_dictSet_fresh t m _ hfresh hnd
    have hlook : ∀ kv ∈ m,
        dlookup (("Year", Cell.year y) ::
          m.map (fun kv => (t ++ "_" ++ kv.1, Cell.metric kv.2))) (t ++ "_" ++ kv.1)
          = some (Cell.metric kv.2) := by
      intro kv hkv
      rw [show dlookup (("Year", Cell.year y) ::
          m.map (fun kv => (t ++ "_" ++ kv.1, Cell.metric kv.2))) (t ++ "_" ++ kv.1)
          = if "Year" = t ++ "_" ++ kv.1 then some (Cell.year y)
            else dlookup (m.map fun kv => (t ++ "_" ++ kv.1, Cell.metric kv.2))
              (t ++ "_" ++ kv.1) from rfl,
        if_neg (Ne.symm (prefixed_ne_year_key t kv.1))]
      exact dlookup_prefixEntries t m hnd hkv
    have hrow_eq : combineRow t t y m m
        = ("Year", Cell.year y) :: m.map (fun kv => (t ++ "_" ++ kv.1, Cell.metric kv.2)) := by
      unfold combineRow
      simp only []
      rw [hfold1, foldl_dictSet_existing t m _ hlook]
    refine ⟨y, m, hm, hk, ?_, ?_, ?_⟩
    · rw [hrow_eq]
      simp [List.map_map]
    · rw [hrow_eq]
      rw [show dlookup (("Year", Cell.year y) ::
          m.map (fun kv => (t ++ "_" ++ kv.1, Cell.metric kv.2))) "Year"
          = some (Cell.year y) from rfl]
    · intro k v hkv
      rw [hrow_eq]
      exact hlook (k, v) hkv

/-- Witness for C10 on the first row of a same-ticker comparison. -/
theorem same_ticker_rows_overwritten_witness :
    compare_stocks_over_range exEnvFull "AAA" "AAA" 2021 2023 = some exRowsSame ∧
    (∃ (y : ℤ) (m : Metrics), get_annual_metrics exEnvFull "AAA" y = some m ∧
      m.map Prod.fst = metricKeys ∧
      exRowsSame.headI.map Prod.fst =
        "Year" :: (m.map Prod.fst).map (fun k => "AAA" ++ "_" ++ k) ∧
      dlookup exRowsSame.headI "Year" = some (Cell.year y) ∧
      ∀ k v, (k, v) ∈ m →
        dlookup exRowsSame.headI ("AAA" ++ "_" ++ k) = some (Cell.metric v)) := by
  refine ⟨rfl, ?_⟩
  have hr : exRowsSame.headI ∈ exRowsSame := by
    have heq : exRowsSame = exRowsSame.headI :: exRowsSame.tail := rfl
    nth_rewrite 2 [heq]
    exact List.mem_cons_self _ _
  exact @same_ticker_rows_overwritten exEnvFull "AAA" 2021 2023 exRowsSame
    exRowsSame.headI rfl hr

/-! ### Claim C9: `get_scalar` on an empty series -/

/-- C9: on an empty series, `get_scalar` falls into the `.sum()` branch and
returns the number `0` (an empty cell coerces to zero, it does not degrade
to the unavailable marker — indeed `get_scalar` always returns a number). -/
theorem get_scalar_empty_series : get_scalar (PdValue.series []) = 0 := rfl

end StockComparison
